import Mathlib

/-!
Verification development for the resilient API client layer of the
converteverything-mcp repository (src/client.ts, src/types.ts).

The TypeScript code is shallowly embedded: JavaScript numbers used as
integers become Nat/Int, JS falsy handling of 0 / "" / undefined is made
explicit, stateful loops become fuel-indexed recursive functions that also
record an observable trace (attempts performed, sleeps performed), and
network effects are represented by oracles (functions from attempt / tick
index to the observed outcome).  Numeric literals of the size estimator are
modelled as exact rationals; Math.round is the round-half-up function.
-/

/-! ## Retry configuration (src/client.ts lines 31-37) -/

def DEFAULT_MAX_RETRIES : Nat := 3

def DEFAULT_RETRY_DELAY : Nat := 1000

def RETRYABLE_STATUS_CODES : List Nat := [408, 429, 500, 502, 503, 504]

def FORMAT_CACHE_TTL : Nat := 3600000

def DEFAULT_BASE_URL : String := "https://converteverything.io"

def DEFAULT_TIMEOUT : Nat := 300000

/-! ## JS falsy-default helpers (`x || d` on numbers and strings) -/

/-- JS `v || d` for an optional number: 0 (and NaN / undefined) fall back. -/
def jsOrNat (v : Option Nat) (d : Nat) : Nat :=
  match v with
  | some x => if x = 0 then d else x
  | none => d

/-- JS `v || d` for an optional integer: 0 falls back. -/
def jsOrInt (v : Option Int) (d : Int) : Int :=
  match v with
  | some x => if x = 0 then d else x
  | none => d

/-- JS `v || d` for an optional string: the empty string falls back. -/
def jsOrString (v : Option String) (d : String) : String :=
  match v with
  | some x => if x = "" then d else x
  | none => d

/-! ## HTTP transport with retry (src/client.ts, fetchWithRetry / getRetryDelay)

A single fetch attempt either yields an HTTP response (status code, the
parsed Retry-After header collapsed to a Nat where 0 stands for an absent /
zero / unparsable header, exactly as `parseInt(h || "0") || undefined`
collapses those cases, and an abstract body tag) or throws (a network error
whose name may or may not be "AbortError", plus an identifying tag). -/

structure HttpResp where
  status : Nat
  retryAfter : Nat
  body : Nat
deriving DecidableEq

inductive FetchOutcome
  | response (r : HttpResp)
  | failure (isAbort : Bool) (tag : Nat)
deriving DecidableEq

/-- src/client.ts lines 82-88: `if (retryAfter) return retryAfter * 1000;`
then exponential backoff `DEFAULT_RETRY_DELAY * 2 ** attempt`.  A supplied
value of 0 is falsy in JS and falls through to the exponential branch. -/
def getRetryDelay (attempt : Nat) (retryAfter : Option Nat) : Nat :=
  match retryAfter with
  | some r => if r = 0 then DEFAULT_RETRY_DELAY * 2 ^ attempt else r * 1000
  | none => DEFAULT_RETRY_DELAY * 2 ^ attempt

inductive RetryError
  | rateLimited (hint : Nat)
  | network (isAbort : Bool) (tag : Nat)
  | exhausted
deriving DecidableEq

deriving instance DecidableEq for Except

/-- Observable events of one logical call: attempt k performed, or a sleep. -/
inductive Ev
  | att (k : Nat)
  | slept (ms : Nat)
deriving DecidableEq

structure RetryResult where
  log : List Ev
  result : Except RetryError HttpResp
deriving DecidableEq

/-- The `throw lastError || new Error("Request failed after retries")`
fall-through of fetchWithRetry. -/
def throwLast (lastErr : Option (Bool × Nat)) : RetryError :=
  match lastErr with
  | some p => RetryError.network p.1 p.2
  | none => RetryError.exhausted

/-- src/client.ts lines 120-171, the body of
`for (let attempt = 0; attempt <= maxRetries; attempt++)`.
`fuel` is the number of loop iterations still permitted
(`maxRetries + 1 - attempt` at every reachable call), `a` is the current
attempt index and `lastErr` is the `lastError` variable.  Note the catch
branch: when the caught error is an AbortError the code merely skips the
backoff sleep — the loop still proceeds to the next attempt. -/
def fetchWithRetryGo (maxRetries : Nat) (oracle : Nat → FetchOutcome) :
    Nat → Nat → Option (Bool × Nat) → RetryResult
  | 0, _, lastErr => RetryResult.mk [] (Except.error (throwLast lastErr))
  | fuel + 1, a, lastErr =>
    match oracle a with
    | FetchOutcome.response r =>
      if r.status = 429 then
        if a < maxRetries then
          let rest := fetchWithRetryGo maxRetries oracle fuel (a + 1) lastErr
          RetryResult.mk
            (Ev.att a :: Ev.slept (getRetryDelay a (some r.retryAfter)) :: rest.log)
            rest.result
        else
          RetryResult.mk [Ev.att a]
            (Except.error (RetryError.rateLimited (if r.retryAfter = 0 then 60 else r.retryAfter)))
      else if r.status ∈ RETRYABLE_STATUS_CODES ∧ a < maxRetries then
        let rest := fetchWithRetryGo maxRetries oracle fuel (a + 1) lastErr
        RetryResult.mk (Ev.att a :: Ev.slept (getRetryDelay a none) :: rest.log) rest.result
      else
        RetryResult.mk [Ev.att a] (Except.ok r)
    | FetchOutcome.failure isAbort t =>
      if a < maxRetries then
        if isAbort then
          let rest := fetchWithRetryGo maxRetries oracle fuel (a + 1) (some (isAbort, t))
          RetryResult.mk (Ev.att a :: rest.log) rest.result
        else
          let rest := fetchWithRetryGo maxRetries oracle fuel (a + 1) (some (isAbort, t))
          RetryResult.mk (Ev.att a :: Ev.slept (getRetryDelay a none) :: rest.log) rest.result
      else
        RetryResult.mk [Ev.att a] (Except.error (RetryError.network isAbort t))

def fetchWithRetry (maxRetries : Nat) (oracle : Nat → FetchOutcome) : RetryResult :=
  fetchWithRetryGo maxRetries oracle (maxRetries + 1) 0 none

def isAttEv (e : Ev) : Bool :=
  match e with
  | Ev.att _ => true
  | Ev.slept _ => false

/-- Number of fetch attempts actually performed by a logical call. -/
def attemptCount (r : RetryResult) : Nat := r.log.countP isAttEv

inductive ReqError
  | api (status : Nat)
  | transport (e : RetryError)
deriving DecidableEq

/-- src/client.ts lines 198-233: the `request` wrapper turns a non-2xx
response (`!response.ok`) into a structured error carrying the status. -/
def requestResult (maxRetries : Nat) (oracle : Nat → FetchOutcome) : Except ReqError Nat :=
  match (fetchWithRetry maxRetries oracle).result with
  | Except.ok r => if 200 ≤ r.status ∧ r.status < 300 then Except.ok r.body else Except.error (ReqError.api r.status)
  | Except.error e => Except.error (ReqError.transport e)

/-- The sleep that fetchWithRetry performs after a retried attempt k, as a
function of that attempt's outcome (none = the code never sleeps after such
an outcome). -/
def sleepSpec (oracle : Nat → FetchOutcome) (k : Nat) : Option Nat :=
  match oracle k with
  | FetchOutcome.response r =>
    if r.status = 429 then some (getRetryDelay k (some r.retryAfter))
    else if r.status ∈ RETRYABLE_STATUS_CODES then some (getRetryDelay k none)
    else none
  | FetchOutcome.failure isAbort _ => if isAbort then none else some (getRetryDelay k none)

/-- The event log of an all-503 run starting at attempt a with n retries
left: attempt, backoff sleep of base times 2 ^ attempt, and so on, ending
with a final attempt that is not retried. -/
def backoffLog (a : Nat) : Nat → List Ev
  | 0 => [Ev.att a]
  | n + 1 => Ev.att a :: Ev.slept (DEFAULT_RETRY_DELAY * 2 ^ a) :: backoffLog (a + 1) n

/-! ## UUID validation (src/client.ts lines 699-703)

`/^[0-9a-f]{8}-[0-9a-f]{4}-[0-9a-f]{4}-[0-9a-f]{4}-[0-9a-f]{12}$/i` -/

def isHexDigitJS (c : Char) : Bool :=
  (decide ('0' ≤ c) && decide (c ≤ '9')) ||
  (decide ('a' ≤ c) && decide (c ≤ 'f')) ||
  (decide ('A' ≤ c) && decide (c ≤ 'F'))

/-- Consume exactly n hex digits, returning the remaining characters. -/
def hexRun : Nat → List Char → Option (List Char)
  | 0, cs => some cs
  | _ + 1, [] => none
  | n + 1, c :: cs => if isHexDigitJS c then hexRun n cs else none

def isValidUuid (s : String) : Bool :=
  match hexRun 8 s.data with
  | some ('-' :: r1) =>
    match hexRun 4 r1 with
    | some ('-' :: r2) =>
      match hexRun 4 r2 with
      | some ('-' :: r3) =>
        match hexRun 4 r3 with
        | some ('-' :: r4) =>
          match hexRun 12 r4 with
          | some [] => true
          | _ => false
        | _ => false
      | _ => false
    | _ => false
  | _ => false

/-! ## Polling state machine (src/client.ts lines 469-498, waitForConversion) -/

inductive ConvStatus
  | pending
  | processing
  | completed
  | failed
  | expired
deriving DecidableEq

/-- `status === "completed" || status === "failed"` -/
def isTerminalStatus (s : ConvStatus) : Bool :=
  s == ConvStatus.completed || s == ConvStatus.failed

inductive WaitOutcome
  | done (s : ConvStatus)
  | timedOut (s : ConvStatus)
  | running
deriving DecidableEq

structure WaitTrace where
  polls : Nat
  sleeps : List Nat
  outcome : WaitOutcome
deriving DecidableEq

/-- The `while (true)` polling loop.  `statusAt t` is the status returned by
the t-th `getConversionStatus` fetch, `elapsedAt t` is the value of
`Date.now() - startTime` observed right after that fetch, and `fuel` bounds
how many iterations we unfold (`WaitOutcome.running` = the loop is still
going after `fuel` iterations).  Per tick: fetch status; return it if
terminal; throw a timeout error reporting it if the elapsed time exceeds
the timeout; otherwise sleep for the fixed poll interval and repeat. -/
def waitGo (pollInterval timeoutMs : Nat) (statusAt : Nat → ConvStatus) (elapsedAt : Nat → Nat) :
    Nat → Nat → WaitTrace
  | 0, _ => WaitTrace.mk 0 [] WaitOutcome.running
  | fuel + 1, t =>
    let s := statusAt t
    if isTerminalStatus s then WaitTrace.mk 1 [] (WaitOutcome.done s)
    else if timeoutMs < elapsedAt t then WaitTrace.mk 1 [] (WaitOutcome.timedOut s)
    else
      let rest := waitGo pollInterval timeoutMs statusAt elapsedAt fuel (t + 1)
      WaitTrace.mk (rest.polls + 1) (pollInterval :: rest.sleeps) rest.outcome

/-- waitForConversion: defaults `options.pollInterval || 2000` and
`options.timeout || 300000` (JS falsy zero falls back), then the UUID check,
then the polling loop. -/
def waitForConversion (conversionId : String) (pollIntervalOpt timeoutOpt : Option Nat)
    (statusAt : Nat → ConvStatus) (elapsedAt : Nat → Nat) (fuel : Nat) :
    Except String WaitTrace :=
  if isValidUuid conversionId then
    Except.ok (waitGo (jsOrNat pollIntervalOpt 2000) (jsOrNat timeoutOpt 300000) statusAt elapsedAt fuel 0)
  else Except.error ("Invalid conversion ID format")

/-! ## Format cache (src/client.ts lines 238-264, getSupportedFormats) -/

structure CacheEntry where
  data : Nat
  timestamp : Nat
deriving DecidableEq

structure GetFormatsOutcome where
  data : Nat
  cache : Option CacheEntry
  networkCalled : Bool
deriving DecidableEq

/-- One call to getSupportedFormats.  `cache` is the current formatCache
slot, `now` is `Date.now()` at the staleness check, `fetchTime` is
`Date.now()` when the fresh response is stored, `fresh` is the (abstract)
body the network would return.  The returned flag records whether the
network request was issued. -/
def getSupportedFormats (cache : Option CacheEntry) (skipCache : Bool) (now fetchTime fresh : Nat) :
    GetFormatsOutcome :=
  match cache with
  | some e =>
    if skipCache = false ∧ now - e.timestamp < FORMAT_CACHE_TTL then
      GetFormatsOutcome.mk e.data (some e) false
    else
      GetFormatsOutcome.mk fresh (some (CacheEntry.mk fresh fetchTime)) true
  | none => GetFormatsOutcome.mk fresh (some (CacheEntry.mk fresh fetchTime)) true

/-! ## Supported formats table (src/types.ts, FORMAT_CATEGORIES keys) -/

def FORMAT_KEYS : List String :=
  ["mp3", "wav", "flac", "aac", "ogg", "m4a", "wma", "aiff", "midi", "mid",
   "opus", "ac3", "amr", "ape",
   "mp4", "avi", "mkv", "mov", "webm", "wmv", "flv", "m4v", "3gp", "ts",
   "vob", "mts", "mpeg", "m2ts", "divx",
   "jpg", "jpeg", "png", "gif", "webp", "bmp", "tiff", "tif", "svg", "ico", "heic",
   "pdf", "docx", "doc", "xlsx", "xls", "pptx", "ppt", "txt", "md", "html",
   "htm", "rtf", "odt", "odp", "ods", "docm", "xlsm",
   "epub", "mobi", "azw3",
   "json", "csv", "xml", "yaml", "yml", "tsv",
   "obj", "stl", "ply", "gltf", "glb", "dae", "off", "fbx", "3ds", "blend",
   "usdz", "step", "stp", "iges", "igs", "ifc",
   "ttf", "otf", "woff", "woff2", "eot",
   "zip", "tar", "gz", "bz2", "7z",
   "dxf"]

/-- JS String.prototype.toLowerCase restricted to its ASCII action (the
format names and option strings it is applied to are ASCII). -/
def charLowerJS (c : Char) : Char :=
  if decide ('A' ≤ c) && decide (c ≤ 'Z') then Char.ofNat (c.toNat + 32) else c

def toLowerJS (s : String) : String := String.mk (s.data.map charLowerJS)

/-- The property names inherited from Object.prototype (the prototype of
the FORMAT_CATEGORIES object literal) that consist only of lowercase
characters.  The JS `in` operator consults the prototype chain, so these
names pass the `in` test besides the own keys of the table; the other
inherited names (toString, valueOf, hasOwnProperty, isPrototypeOf,
propertyIsEnumerable, toLocaleString, the getter and setter helpers)
contain an uppercase letter and can never match the lowercased format
string. -/
def OBJECT_PROTO_LOWER_KEYS : List String := ["constructor", "__proto__"]

/-- src/types.ts isFormatSupported: `format.toLowerCase() in
FORMAT_CATEGORIES`.  Because `in` also reports inherited properties, the
check accepts the lowercased own keys of the table and, additionally, the
lowercase Object.prototype property names. -/
def isFormatSupported (format : String) : Bool :=
  decide (toLowerJS format ∈ FORMAT_KEYS) || decide (toLowerJS format ∈ OBJECT_PROTO_LOWER_KEYS)

/-- `targetFormat.toLowerCase().replace(/^\./, "")` — lowercase, then strip
one leading dot. -/
def stripLeadingDot (s : String) : String :=
  match s.data with
  | '.' :: rest => String.mk rest
  | _ => s

def normalizeFormat (t : String) : String := stripLeadingDot (toLowerJS t)

/-! ## String helpers mirroring the JS string operations used by client.ts -/

/-- JS String.prototype.startsWith. -/
def strStartsWith (s p : String) : Bool := p.data.isPrefixOf s.data

/-- JS String.prototype.includes (substring search). -/
def strContains (hay needle : String) : Bool :=
  hay.data.tails.any (fun t => needle.data.isPrefixOf t)

/-- JS String.prototype.replace with a plain-string pattern: replace the
first occurrence only. -/
def replaceFirstL (pat rep : List Char) : List Char → List Char
  | [] => if pat = [] then rep else []
  | c :: cs =>
    if pat.isPrefixOf (c :: cs) then rep ++ (c :: cs).drop pat.length
    else c :: replaceFirstL pat rep cs

/-! ## Base URL sanitization (src/client.ts lines 176-193, sanitizeUrl) -/

/-- `url.replace(/\/+$/, "")`: remove all trailing slashes. -/
def stripTrailingSlashesL (cs : List Char) : List Char :=
  (cs.reverse.dropWhile (fun c => c = '/')).reverse

def stripTrailingSlashes (s : String) : String := String.mk (stripTrailingSlashesL s.data)

/-- The pure part of sanitizeUrl: strip trailing slashes, then
`if (sanitized.startsWith("http://") && !sanitized.includes("localhost"))`
replace the (leading) "http://" by "https://". -/
def sanitizeUrlCore (url : String) : String :=
  let s := stripTrailingSlashes url
  if strStartsWith s ("http://") && !(strContains s ("localhost")) then
    String.mk (("https://").data ++ s.data.drop 7)
  else s

/-- sanitizeUrl with the platform `new URL(...)` well-formedness check
abstracted as a boolean predicate (a malformed result is rejected). -/
def sanitizeUrl (validUrl : String → Bool) (url : String) : Except String String :=
  let s := sanitizeUrlCore url
  if validUrl s then Except.ok s else Except.error ("Invalid base URL: " ++ url)

def lastCharOf (s : String) : Option Char := s.data.getLast?

/-- Spec-side reading (not from the code) of what it means for a base
address to reference a loopback host: the host component of the URL — the
characters between the scheme separator and the next slash, with any port
stripped — is a loopback name or address.  Used to compare the spec
sentence against the substring test the code actually performs. -/
def afterSchemeL : List Char → Option (List Char)
  | [] => none
  | c :: cs => if c = ':' ∧ cs.take 2 = ['/', '/'] then some (cs.drop 2) else afterSchemeL cs

def urlHost (s : String) : String :=
  match afterSchemeL s.data with
  | some rest => String.mk ((rest.takeWhile (fun c => c ≠ '/')).takeWhile (fun c => c ≠ ':'))
  | none => ""

def specReferencesLoopbackHost (s : String) : Bool :=
  urlHost s = "localhost" || urlHost s = "127.0.0.1" || urlHost s = "[::1]"

/-! ## Filename sanitization (src/client.ts lines 708-728, sanitizeFilename)

Node path.basename / path.extname (posix) are embedded for the slash-free
inputs they receive here; JS string length is modelled as the character
count (identical for the ASCII inputs of interest). -/

/-- Node posix path.basename (no suffix argument): ignore trailing
separators, then keep everything after the last separator. -/
def basenameL (cs : List Char) : List Char :=
  let noTrail := (cs.reverse.dropWhile (fun c => c = '/')).reverse
  (noTrail.reverse.takeWhile (fun c => c ≠ '/')).reverse

/-- Index of the last dot of a list of characters, if any. -/
def lastDotIdx : List Char → Option Nat
  | [] => none
  | c :: cs =>
    match lastDotIdx cs with
    | some i => some (i + 1)
    | none => if c = '.' then some 0 else none

/-- Node posix path.extname restricted to slash-free input: the suffix from
the last dot, unless that dot is the first character, or the whole name is
exactly ".." (the leading-dot / double-dot special cases of the Node
scanner). -/
def extnameNS (cs : List Char) : List Char :=
  match lastDotIdx cs with
  | none => []
  | some i =>
    if i = 0 then []
    else if i = 1 ∧ i = cs.length - 1 ∧ cs.head? = some '.' then []
    else cs.drop i

/-- Node posix path.basename(name, ext) restricted to slash-free input:
strip the suffix `ext` when it is a proper suffix of the name (the whole
name is never stripped to empty). -/
def basenameSuffixNS (cs ext : List Char) : List Char :=
  if ext.length = 0 ∨ cs.length < ext.length then cs
  else if ext.isSuffixOf cs then
    if cs.length = ext.length then cs
    else cs.take (cs.length - ext.length)
  else cs

/-- The character class `[\x00-\x1f\x80-\x9f]` removed by sanitizeFilename. -/
def CONTROL_RANGE (c : Char) : Bool :=
  decide (c.toNat ≤ 31) || (decide (128 ≤ c.toNat) && decide (c.toNat ≤ 159))

/-- Stages 1-2 of sanitizeFilename: strip directory components, then remove
the control / unsafe ranges. -/
def sanStage (cs : List Char) : List Char :=
  (basenameL cs).filter (fun c => !(CONTROL_RANGE c))

/-- src/client.ts sanitizeFilename: basename, remove unsafe ranges, length
cap at 255 preserving the extension (`base.substring(0, 255 - ext.length) +
ext`, where a negative bound clamps to 0 like JS substring), and the
fallback to "file" when the result is empty or ".". -/
def sanitizeFilenameL (cs : List Char) : List Char :=
  let n2 := sanStage cs
  let n3 :=
    if 255 < n2.length then
      let ext := extnameNS n2
      let base := basenameSuffixNS n2 ext
      base.take (255 - ext.length) ++ ext
    else n2
  if n3 = [] ∨ n3 = ['.'] then ['f', 'i', 'l', 'e'] else n3

def sanitizeFilename (s : String) : String := String.mk (sanitizeFilenameL s.data)

/-! ## Client construction (src/client.ts lines 52-70) -/

structure ClientModel where
  apiKey : String
  baseUrl : String
  timeoutMs : Nat
deriving DecidableEq

/-- The constructor: reject a falsy key, reject a key without the "ce_"
prefix, then sanitize the base URL (`config.baseUrl || DEFAULT_BASE_URL`)
and resolve the timeout (`config.timeout || DEFAULT_TIMEOUT`). -/
def mkClient (apiKey : String) (baseUrlOpt : Option String) (timeoutOpt : Option Nat)
    (validUrl : String → Bool) : Except String ClientModel :=
  if apiKey = "" then Except.error ("API key is required")
  else if strStartsWith apiKey ("ce_") = false then
    Except.error ("Invalid API key format. Keys should start with ce_.")
  else
    match sanitizeUrl validUrl (jsOrString baseUrlOpt DEFAULT_BASE_URL) with
    | Except.ok u => Except.ok (ClientModel.mk apiKey u (jsOrNat timeoutOpt DEFAULT_TIMEOUT))
    | Except.error e => Except.error e

/-! ## Client operations: local validation before any network request.

Each operation is modelled up to its first outbound HTTP request: a
returned `Except.ok` carries the request that would be issued, while
`Except.error` means the operation failed locally with no network call. -/

inductive ApiRequest
  | get (endpoint : String)
  | post (endpoint : String) (size : Nat) (filename : String) (outputFormat : String)
deriving DecidableEq

/-- getConversionStatus (lines 276-283): UUID check, then GET /convert/id. -/
def getConversionStatusReq (conversionId : String) : Except String ApiRequest :=
  if isValidUuid conversionId then Except.ok (ApiRequest.get ("/convert/" ++ conversionId))
  else Except.error ("Invalid conversion ID format")

/-- downloadFile (lines 403-464): UUID check, then the status fetch is the
first network request. -/
def downloadFileReq (conversionId : String) : Except String ApiRequest :=
  if isValidUuid conversionId then getConversionStatusReq conversionId
  else Except.error ("Invalid conversion ID format")

/-- cancelConversion (lines 523-548): UUID check, then the status fetch. -/
def cancelConversionReq (conversionId : String) : Except String ApiRequest :=
  if isValidUuid conversionId then getConversionStatusReq conversionId
  else Except.error ("Invalid conversion ID format")

/-- retryConversion (lines 669-694): UUID check, then the status fetch. -/
def retryConversionReq (conversionId : String) : Except String ApiRequest :=
  if isValidUuid conversionId then getConversionStatusReq conversionId
  else Except.error ("Invalid conversion ID format")

def MAX_UPLOAD_SIZE : Nat := 10 * 1024 * 1024 * 1024

/-- convertFileBuffer (lines 349-398): size ceiling, target format
validation, filename sanitization, then the multipart POST. -/
def convertFileBufferReq (size : Nat) (fileName : String) (targetFormat : String) :
    Except String ApiRequest :=
  if MAX_UPLOAD_SIZE < size then Except.error ("File too large. Maximum size is 10GB.")
  else
    let nf := normalizeFormat targetFormat
    if isFormatSupported nf = false then
      Except.error ("Unsupported target format: " ++ targetFormat)
    else Except.ok (ApiRequest.post ("/convert") size (sanitizeFilename fileName) nf)

/-- convertFile (lines 322-344): path validation (filesystem interaction is
abstracted as its outcome: none = invalid path, some (size, name) = the
validated file), then format validation, then delegation to
convertFileBuffer with the normalized format. -/
def convertFileReq (pathResult : Option (Nat × String)) (targetFormat : String) :
    Except String ApiRequest :=
  match pathResult with
  | none => Except.error ("File not found")
  | some p =>
    let nf := normalizeFormat targetFormat
    if isFormatSupported nf = false then
      Except.error ("Unsupported target format: " ++ targetFormat)
    else convertFileBufferReq p.1 p.2 nf

/-! ## Output size estimator (src/client.ts lines 595-664, estimateOutputSize)

The JS number arithmetic of the ratio rules is modelled over exact
rationals; `Math.round` is `round` (floor of x + 1/2, which is how JS
rounds halves toward positive infinity). -/

inductive Confidence
  | low
  | medium
  | high
deriving DecidableEq

structure EstOptions where
  bitrate : Option String
  crf : Option Int
  quality : Option Nat
deriving DecidableEq

structure EstResult where
  estimatedSize : Int
  confidence : Confidence
  notes : String
deriving DecidableEq

/-- Decimal value of the leading digits of a character list. -/
def leadingDigitsGo : List Char → Nat → Nat
  | c :: cs, acc =>
    if decide ('0' ≤ c) && decide (c ≤ '9') then leadingDigitsGo cs (acc * 10 + (c.toNat - 48))
    else acc
  | [], acc => acc

def leadingDigits (cs : List Char) : Option Nat :=
  match cs with
  | c :: _ => if decide ('0' ≤ c) && decide (c ≤ '9') then some (leadingDigitsGo cs 0) else none
  | [] => none

/-- JS parseInt(s, 10) restricted to an optional sign followed by decimal
digits; none stands for NaN. -/
def parseIntJS (s : String) : Option Int :=
  match s.data with
  | '-' :: rest => (leadingDigits rest).map (fun n => -(n : Int))
  | '+' :: rest => (leadingDigits rest).map (fun n => (n : Int))
  | cs => (leadingDigits cs).map (fun n => (n : Int))

/-- estimateOutputSize.  The sequential reassignments of ratio / confidence
/ notes in the source become a chain of lets, one per rule block. -/
def estimateOutputSize (inputSize : Int) (sourceFormat targetFormat : String)
    (opts : EstOptions) : EstResult :=
  let src := toLowerJS sourceFormat
  let tgt := toLowerJS targetFormat
  let st1 : ℚ × Confidence × String := (1, Confidence.medium, "")
  let st2 :=
    if tgt ∈ ["mp3", "aac", "ogg", "opus"] then
      if src ∈ ["wav", "flac", "aiff"] then
        let bitrate := jsOrString opts.bitrate ("192k")
        let kbps := jsOrInt (parseIntJS (String.mk (replaceFirstL ['k'] [] bitrate.data))) 192
        ((kbps : ℚ) / 1400, Confidence.high, "Based on " ++ bitrate ++ " bitrate")
      else st1
    else if tgt ∈ ["wav", "flac"] then
      if src ∈ ["mp3", "aac", "ogg"] then
        ((if src = "mp3" then (8 : ℚ) else 6), Confidence.medium,
          "Expanding lossy to lossless format")
      else st1
    else st1
  let st3 :=
    if tgt ∈ ["mp4", "webm", "mkv"] then
      match opts.crf with
      | some crf =>
        ((if crf < 20 then (3 : ℚ) / 2 else if 28 < crf then (1 : ℚ) / 2 else 1),
          Confidence.medium,
          "CRF " ++ toString crf ++ ": " ++
            (if crf < 20 then "high quality, larger file"
             else if 28 < crf then "lower quality, smaller file" else "balanced"))
      | none => st2
    else st2
  let st4 :=
    if tgt ∈ ["jpg", "jpeg", "webp"] then
      let quality := jsOrNat opts.quality 85
      if src ∈ ["png", "bmp", "tiff"] then
        ((1 : ℚ) / 10 + ((quality : ℚ) / 100) * ((3 : ℚ) / 10), Confidence.high,
          "Quality " ++ toString quality ++ "%")
      else st3
    else if tgt = "png" then
      if src ∈ ["jpg", "jpeg", "webp"] then
        ((3 : ℚ), Confidence.medium, "Lossless format, larger file expected")
      else st3
    else st3
  let st5 :=
    if tgt = "pdf" ∧ src ∈ ["docx", "doc", "pptx"] then
      ((4 : ℚ) / 5, Confidence.low, "Depends heavily on document content")
    else st4
  EstResult.mk (round ((inputSize : ℚ) * st5.1)) st5.2.1 st5.2.2

theorem go_log_head (mR : Nat) (oracle : Nat → FetchOutcome) (fuel a : Nat)
    (le : Option (Bool × Nat)) :
    ∃ t, (fetchWithRetryGo mR oracle (fuel + 1) a le).log = Ev.att a :: t := by
  simp only [fetchWithRetryGo]
  cases ho : oracle a with
  | response r =>
    dsimp only
    by_cases h429 : r.status = 429
    · rw [if_pos h429]
      by_cases hma : a < mR
      · rw [if_pos hma]; exact ⟨_, rfl⟩
      · rw [if_neg hma]; exact ⟨_, rfl⟩
    · rw [if_neg h429]
      by_cases hrt : r.status ∈ RETRYABLE_STATUS_CODES ∧ a < mR
      · rw [if_pos hrt]; exact ⟨_, rfl⟩
      · rw [if_neg hrt]; exact ⟨_, rfl⟩
  | failure b t =>
    dsimp only
    by_cases hma : a < mR
    · rw [if_pos hma]
      cases b
      · rw [if_neg Bool.false_ne_true]; exact ⟨_, rfl⟩
      · rw [if_pos rfl]; exact ⟨_, rfl⟩
    · rw [if_neg hma]; exact ⟨_, rfl⟩

theorem go_adjacent (mR : Nat) (oracle : Nat → FetchOutcome) :
    ∀ fuel a le l1 k d l2,
      (fetchWithRetryGo mR oracle fuel a le).log = l1 ++ Ev.att k :: Ev.slept d :: l2 →
      sleepSpec oracle k = some d ∧ k < mR := by
  intro fuel
  induction fuel with
  | zero =>
    intro a le l1 k d l2 h
    simp only [fetchWithRetryGo] at h
    simp at h
  | succ fuel ih =>
    intro a le l1 k d l2 h
    simp only [fetchWithRetryGo] at h
    cases ho : oracle a with
    | response r =>
      rw [ho] at h
      dsimp only at h
      by_cases h429 : r.status = 429
      · rw [if_pos h429] at h
        by_cases hma : a < mR
        · rw [if_pos hma] at h
          cases l1 with
          | nil =>
            simp only [List.nil_append, List.cons.injEq, Ev.att.injEq, Ev.slept.injEq] at h
            obtain ⟨hk, hd, _⟩ := h
            subst hk; subst hd
            exact ⟨by simp [sleepSpec, ho, h429], hma⟩
          | cons e l1' =>
            cases l1' with
            | nil => simp at h
            | cons e2 l1'' =>
              simp only [List.cons_append, List.cons.injEq] at h
              exact ih (a + 1) le l1'' k d l2 h.2.2
        · rw [if_neg hma] at h
          have hlen := congrArg List.length h
          simp [List.length_append] at hlen
          omega
      · rw [if_neg h429] at h
        by_cases hrt : r.status ∈ RETRYABLE_STATUS_CODES ∧ a < mR
        · rw [if_pos hrt] at h
          cases l1 with
          | nil =>
            simp only [List.nil_append, List.cons.injEq, Ev.att.injEq, Ev.slept.injEq] at h
            obtain ⟨hk, hd, _⟩ := h
            subst hk; subst hd
            exact ⟨by simp [sleepSpec, ho, h429, hrt.1], hrt.2⟩
          | cons e l1' =>
            cases l1' with
            | nil => simp at h
            | cons e2 l1'' =>
              simp only [List.cons_append, List.cons.injEq] at h
              exact ih (a + 1) le l1'' k d l2 h.2.2
        · rw [if_neg hrt] at h
          have hlen := congrArg List.length h
          simp [List.length_append] at hlen
          omega
    | failure b t =>
      rw [ho] at h
      dsimp only at h
      by_cases hma : a < mR
      · rw [if_pos hma] at h
        cases b
        · rw [if_neg Bool.false_ne_true] at h
          cases l1 with
          | nil =>
            simp only [List.nil_append, List.cons.injEq, Ev.att.injEq, Ev.slept.injEq] at h
            obtain ⟨hk, hd, _⟩ := h
            subst hk; subst hd
            exact ⟨by simp [sleepSpec, ho], hma⟩
          | cons e l1' =>
            cases l1' with
            | nil => simp at h
            | cons e2 l1'' =>
              simp only [List.cons_append, List.cons.injEq] at h
              exact ih (a + 1) (some (false, t)) l1'' k d l2 h.2.2
        · rw [if_pos rfl] at h
          cases l1 with
          | nil =>
            simp only [List.nil_append, List.cons.injEq, Ev.att.injEq] at h
            obtain ⟨hk, hrest⟩ := h
            cases fuel with
            | zero =>
              simp only [fetchWithRetryGo] at hrest
              simp at hrest
            | succ fuel' =>
              obtain ⟨tl, htl⟩ := go_log_head mR oracle fuel' (a + 1) (some (true, t))
              rw [htl] at hrest
              simp at hrest
          | cons e l1' =>
            simp only [List.cons_append, List.cons.injEq] at h
            exact ih (a + 1) (some (true, t)) l1' k d l2 h.2
      · rw [if_neg hma] at h
        have hlen := congrArg List.length h
        simp [List.length_append] at hlen
        omega

theorem go_all503 (mR : Nat) (oracle : Nat → FetchOutcome) (resp : Nat → HttpResp)
    (ho : ∀ k, k ≤ mR → oracle k = FetchOutcome.response (resp k))
    (hs : ∀ k, k ≤ mR → (resp k).status = 503) :
    ∀ n a le, a + n = mR →
      fetchWithRetryGo mR oracle (n + 1) a le =
        RetryResult.mk (backoffLog a n) (Except.ok (resp mR)) := by
  intro n
  induction n with
  | zero =>
    intro a le ha
    have haM : a = mR := by omega
    subst haM
    simp only [fetchWithRetryGo]
    rw [ho a le_rfl]
    dsimp only
    rw [if_neg (by rw [hs a le_rfl]; decide)]
    rw [if_neg (by intro hc; exact absurd hc.2 (lt_irrefl a))]
    rfl
  | succ n ih =>
    intro a le ha
    have haM : a < mR := by omega
    have haLe : a ≤ mR := le_of_lt haM
    rw [fetchWithRetryGo]
    rw [ho a haLe]
    dsimp only
    rw [if_neg (by rw [hs a haLe]; decide)]
    rw [if_pos (And.intro (by rw [hs a haLe]; decide) haM)]
    rw [ih (a + 1) le (by omega)]
    rfl

theorem backoffLog_count : ∀ n a, (backoffLog a n).countP isAttEv = n + 1 := by
  intro n
  induction n with
  | zero => intro a; simp [backoffLog, List.countP_cons, isAttEv]
  | succ n ih =>
    intro a
    simp only [backoffLog, List.countP_cons, isAttEv]
    rw [ih (a + 1)]
    simp

/-- Claim C1: for a logical call whose every attempt yields HTTP 503, the
transport performs exactly maxRetries + 1 attempts, the sleep after attempt
k is the base delay 1000 ms times 2 ^ k (see backoffLog), the response of
the final attempt is what the call returns, and the request wrapper
surfaces it as a structured status-503 error. -/
theorem claim_C1_retry503 (mR : Nat) (oracle : Nat → FetchOutcome) (resp : Nat → HttpResp)
    (ho : ∀ k, k ≤ mR → oracle k = FetchOutcome.response (resp k))
    (hs : ∀ k, k ≤ mR → (resp k).status = 503) :
    fetchWithRetry mR oracle = RetryResult.mk (backoffLog 0 mR) (Except.ok (resp mR)) ∧
    attemptCount (fetchWithRetry mR oracle) = mR + 1 ∧
    requestResult mR oracle = Except.error (ReqError.api 503) := by
  have hrun : fetchWithRetry mR oracle =
      RetryResult.mk (backoffLog 0 mR) (Except.ok (resp mR)) :=
    go_all503 mR oracle resp ho hs mR 0 none (by omega)
  refine ⟨hrun, ?_, ?_⟩
  · rw [attemptCount, hrun]
    exact backoffLog_count mR 0
  · rw [requestResult, hrun]
    dsimp only
    rw [if_neg (by rw [hs mR le_rfl]; decide)]
    rw [hs mR le_rfl]

/-- Witness for C1 at the default retry bound 3: four attempts, sleeps of
1000, 2000 and 4000 ms, and the fourth 503 response returned. -/
theorem claim_C1_witness :
    fetchWithRetry DEFAULT_MAX_RETRIES (fun k => FetchOutcome.response (HttpResp.mk 503 0 k)) =
      RetryResult.mk (backoffLog 0 DEFAULT_MAX_RETRIES)
        (Except.ok (HttpResp.mk 503 0 DEFAULT_MAX_RETRIES)) ∧
    attemptCount (fetchWithRetry DEFAULT_MAX_RETRIES
      (fun k => FetchOutcome.response (HttpResp.mk 503 0 k))) = DEFAULT_MAX_RETRIES + 1 ∧
    requestResult DEFAULT_MAX_RETRIES (fun k => FetchOutcome.response (HttpResp.mk 503 0 k)) =
      Except.error (ReqError.api 503) :=
  claim_C1_retry503 DEFAULT_MAX_RETRIES
    (fun k => FetchOutcome.response (HttpResp.mk 503 0 k))
    (fun k => HttpResp.mk 503 0 k)
    (fun _ _ => rfl) (fun _ _ => rfl)

/-- Claim C2 (amended): whenever the event log of a logical call shows a
sleep of d ms immediately after an attempt k that received HTTP 429
carrying a (parsed) Retry-After value N, then d = N * 1000 ms whenever
N is at least 1; when the header is absent, zero or unparsable
(collapsed to N = 0, which is falsy in JS) the delay is instead the
exponential backoff base * 2 ^ k.  A retry remained (k < maxRetries). -/
theorem claim_C2_retryAfter (mR : Nat) (oracle : Nat → FetchOutcome) (k N b d : Nat)
    (l1 l2 : List Ev)
    (hor : oracle k = FetchOutcome.response (HttpResp.mk 429 N b))
    (hlog : (fetchWithRetry mR oracle).log = l1 ++ Ev.att k :: Ev.slept d :: l2) :
    (1 ≤ N → d = N * 1000) ∧
    (N = 0 → d = DEFAULT_RETRY_DELAY * 2 ^ k) ∧
    k < mR := by
  have hadj := go_adjacent mR oracle (mR + 1) 0 none l1 k d l2 hlog
  have hsp : sleepSpec oracle k = some d := hadj.1
  rw [sleepSpec, hor] at hsp
  dsimp only at hsp
  rw [if_pos rfl] at hsp
  rw [getRetryDelay] at hsp
  refine ⟨?_, ?_, hadj.2⟩
  · intro hN
    rw [if_neg (by omega)] at hsp
    exact (Option.some.injEq _ _ ▸ hsp).symm
  · intro hN
    subst hN
    rw [if_pos rfl] at hsp
    exact (Option.some.injEq _ _ ▸ hsp).symm

/-- Witness for C2: a 429 with Retry-After 7 at attempt 0 is followed by a
7000 ms sleep. -/
theorem claim_C2_witness :
    (1 ≤ 7 → 7000 = 7 * 1000) ∧
    (7 = 0 → 7000 = DEFAULT_RETRY_DELAY * 2 ^ 0) ∧
    0 < 3 :=
  claim_C2_retryAfter 3
    (fun j => if j = 0 then FetchOutcome.response (HttpResp.mk 429 7 5)
              else FetchOutcome.response (HttpResp.mk 200 0 1))
    0 7 5 7000 [] [Ev.att 1] rfl (by decide)

/-- Counterexample to C2 as stated: an attempt that receives HTTP 429 with
a Retry-After header value of N = 0 seconds is followed by the exponential
backoff sleep of 1000 ms, not by N * 1000 = 0 ms. -/
theorem claim_C2_counterexample :
    (fetchWithRetry 3
      (fun j => if j = 0 then FetchOutcome.response (HttpResp.mk 429 0 5)
                else FetchOutcome.response (HttpResp.mk 200 0 1))).log =
      [Ev.att 0, Ev.slept 1000, Ev.att 1] ∧
    (1000 : Nat) ≠ 0 * 1000 := by
  refine ⟨by decide, by decide⟩

/-- For C3 (code bug): an attempt that fails with an AbortError (the
per-request timeout) is retried after all — the AbortError check in the
catch block only skips the backoff sleep, it does not stop the loop.  With
an abort at attempt 0 and a 200 response at attempt 1, the call performs
two attempts (no sleep in between) and returns the second response instead
of raising after the aborted attempt. -/
theorem claim_C3_abort_eval :
    fetchWithRetry 3
      (fun j => if j = 0 then FetchOutcome.failure true 0
                else FetchOutcome.response (HttpResp.mk 200 0 9)) =
      RetryResult.mk [Ev.att 0, Ev.att 1] (Except.ok (HttpResp.mk 200 0 9)) ∧
    attemptCount (fetchWithRetry 3
      (fun j => if j = 0 then FetchOutcome.failure true 0
                else FetchOutcome.response (HttpResp.mk 200 0 9))) = 2 := by
  refine ⟨by decide, by decide⟩

theorem waitGo_done (pI tO : Nat) (sA : Nat → ConvStatus) (eA : Nat → Nat) :
    ∀ k t fuel,
      (∀ j, j < k → isTerminalStatus (sA (t + j)) = false ∧ eA (t + j) ≤ tO) →
      isTerminalStatus (sA (t + k)) = true →
      k < fuel →
      waitGo pI tO sA eA fuel t =
        WaitTrace.mk (k + 1) (List.replicate k pI) (WaitOutcome.done (sA (t + k))) := by
  intro k
  induction k with
  | zero =>
    intro t fuel hpre hT hf
    cases fuel with
    | zero => omega
    | succ f =>
      rw [waitGo]
      dsimp only
      rw [Nat.add_zero] at hT
      rw [if_pos hT]
      simp
  | succ k ih =>
    intro t fuel hpre hT hf
    cases fuel with
    | zero => omega
    | succ f =>
      rw [waitGo]
      dsimp only
      have h0 := hpre 0 (Nat.succ_pos k)
      rw [Nat.add_zero] at h0
      rw [if_neg (by rw [h0.1]; exact Bool.false_ne_true)]
      rw [if_neg (Nat.not_lt.mpr h0.2)]
      have hpre' : ∀ j, j < k → isTerminalStatus (sA ((t + 1) + j)) = false ∧ eA ((t + 1) + j) ≤ tO := by
        intro j hj
        have hx := hpre (j + 1) (by omega)
        rwa [show t + (j + 1) = (t + 1) + j by omega] at hx
      have hT' : isTerminalStatus (sA ((t + 1) + k)) = true := by
        rwa [show t + (k + 1) = (t + 1) + k by omega] at hT
      rw [ih (t + 1) f hpre' hT' (by omega)]
      rw [show (t + 1) + k = t + (k + 1) by omega]
      simp [List.replicate_succ]

theorem waitGo_timeout (pI tO : Nat) (sA : Nat → ConvStatus) (eA : Nat → Nat) :
    ∀ k t fuel,
      (∀ j, j ≤ k → isTerminalStatus (sA (t + j)) = false) →
      (∀ j, j < k → eA (t + j) ≤ tO) →
      tO < eA (t + k) →
      k < fuel →
      waitGo pI tO sA eA fuel t =
        WaitTrace.mk (k + 1) (List.replicate k pI) (WaitOutcome.timedOut (sA (t + k))) := by
  intro k
  induction k with
  | zero =>
    intro t fuel hnt hpre hE hf
    cases fuel with
    | zero => omega
    | succ f =>
      rw [waitGo]
      dsimp only
      have h0 := hnt 0 le_rfl
      rw [Nat.add_zero] at h0 hE
      rw [if_neg (by rw [h0]; exact Bool.false_ne_true)]
      rw [if_pos hE]
      simp
  | succ k ih =>
    intro t fuel hnt hpre hE hf
    cases fuel with
    | zero => omega
    | succ f =>
      rw [waitGo]
      dsimp only
      have h0 := hnt 0 (by omega)
      have h0e := hpre 0 (by omega)
      rw [Nat.add_zero] at h0 h0e
      rw [if_neg (by rw [h0]; exact Bool.false_ne_true)]
      rw [if_neg (Nat.not_lt.mpr h0e)]
      have hnt' : ∀ j, j ≤ k → isTerminalStatus (sA ((t + 1) + j)) = false := by
        intro j hj
        have hx := hnt (j + 1) (by omega)
        rwa [show t + (j + 1) = (t + 1) + j by omega] at hx
      have hpre' : ∀ j, j < k → eA ((t + 1) + j) ≤ tO := by
        intro j hj
        have hx := hpre (j + 1) (by omega)
        rwa [show t + (j + 1) = (t + 1) + j by omega] at hx
      have hE' : tO < eA ((t + 1) + k) := by
        rwa [show t + (k + 1) = (t + 1) + k by omega] at hE
      rw [ih (t + 1) f hnt' hpre' hE' (by omega)]
      rw [show (t + 1) + k = t + (k + 1) by omega]
      simp [List.replicate_succ]

/-- Claim C4: the polling state machine of waitForConversion.  (1) With no
caller options the loop runs with the default 2000 ms poll interval and
300000 ms timeout; (2) nonzero caller-supplied values override the
defaults; (3) if the first terminal status ("completed" or "failed")
appears at tick k and no earlier tick overran the timeout, the wait
performs k + 1 status fetches, sleeps the fixed poll interval k times, and
returns that terminal status; (4) if every tick up to k is non-terminal,
ticks before k are within the timeout and the elapsed time at tick k
exceeds it, the wait performs k + 1 fetches and throws a timeout error
reporting the last-observed non-terminal status. -/
theorem claim_C4_wait_machine :
    (∀ cid sA eA fuel, isValidUuid cid = true →
      waitForConversion cid none none sA eA fuel =
        Except.ok (waitGo 2000 300000 sA eA fuel 0)) ∧
    (∀ cid pIv tOv sA eA fuel, isValidUuid cid = true → 1 ≤ pIv → 1 ≤ tOv →
      waitForConversion cid (some pIv) (some tOv) sA eA fuel =
        Except.ok (waitGo pIv tOv sA eA fuel 0)) ∧
    (∀ pI tO sA eA k fuel,
      (∀ j, j < k → isTerminalStatus (sA j) = false ∧ eA j ≤ tO) →
      isTerminalStatus (sA k) = true →
      k < fuel →
      waitGo pI tO sA eA fuel 0 =
        WaitTrace.mk (k + 1) (List.replicate k pI) (WaitOutcome.done (sA k))) ∧
    (∀ pI tO sA eA k fuel,
      (∀ j, j ≤ k → isTerminalStatus (sA j) = false) →
      (∀ j, j < k → eA j ≤ tO) →
      tO < eA k →
      k < fuel →
      waitGo pI tO sA eA fuel 0 =
        WaitTrace.mk (k + 1) (List.replicate k pI) (WaitOutcome.timedOut (sA k))) := by
  refine ⟨?_, ?_, ?_, ?_⟩
  · intro cid sA eA fuel hu
    rw [waitForConversion, if_pos hu]
    rfl
  · intro cid pIv tOv sA eA fuel hu hp ht
    rw [waitForConversion, if_pos hu]
    rw [jsOrNat, jsOrNat]
    rw [if_neg (by omega), if_neg (by omega)]
  · intro pI tO sA eA k fuel hpre hT hf
    have := waitGo_done pI tO sA eA k 0 fuel
      (by intro j hj; have := hpre j hj; rwa [Nat.zero_add]) (by rwa [Nat.zero_add]) hf
    rwa [Nat.zero_add] at this
  · intro pI tO sA eA k fuel hnt hpre hE hf
    have := waitGo_timeout pI tO sA eA k 0 fuel
      (by intro j hj; have := hnt j hj; rwa [Nat.zero_add])
      (by intro j hj; have := hpre j hj; rwa [Nat.zero_add])
      (by rwa [Nat.zero_add]) hf
    rwa [Nat.zero_add] at this

/-- Witness for C4: with defaults, statuses processing, processing,
completed and zero elapsed time the wait returns after three fetches and
two 2000 ms sleeps; overriding with 500 / 60000 works; and a run whose
clock jumps past the timeout while still processing times out on the first
tick reporting that status. -/
theorem claim_C4_witness :
    waitForConversion ("a1b2c3d4-e5f6-a7b8-c9d0-e1f2a3b4c5d6") none none
        (fun t => if t < 2 then ConvStatus.processing else ConvStatus.completed)
        (fun _ => 0) 5 =
      Except.ok (waitGo 2000 300000
        (fun t => if t < 2 then ConvStatus.processing else ConvStatus.completed)
        (fun _ => 0) 5 0) ∧
    waitForConversion ("a1b2c3d4-e5f6-a7b8-c9d0-e1f2a3b4c5d6") (some 500) (some 60000)
        (fun _ => ConvStatus.pending) (fun _ => 0) 1 =
      Except.ok (waitGo 500 60000 (fun _ => ConvStatus.pending) (fun _ => 0) 1 0) ∧
    waitGo 2000 300000
        (fun t => if t < 2 then ConvStatus.processing else ConvStatus.completed)
        (fun _ => 0) 5 0 =
      WaitTrace.mk 3 [2000, 2000] (WaitOutcome.done ConvStatus.completed) ∧
    waitGo 2000 300000 (fun _ => ConvStatus.processing) (fun _ => 300001) 5 0 =
      WaitTrace.mk 1 [] (WaitOutcome.timedOut ConvStatus.processing) := by
  have h := claim_C4_wait_machine
  refine ⟨h.1 _ _ _ 5 (by decide), h.2.1 _ 500 60000 _ _ 1 (by decide) (by omega) (by omega), ?_, ?_⟩
  · have h3 := h.2.2.1 2000 300000
      (fun t => if t < 2 then ConvStatus.processing else ConvStatus.completed)
      (fun _ => 0) 2 5 (by decide) (by decide) (by omega)
    simpa using h3
  · have h4 := h.2.2.2 2000 300000 (fun _ => ConvStatus.processing)
      (fun _ => 300001) 0 5 (by intro j hj; rfl) (by intro j hj; omega) (by norm_num) (by omega)
    simpa using h4

/-- Claim C10: a timeout error of the polling loop is only ever thrown
after at least one status fetch and only ever reports a non-terminal
status observed at a tick whose elapsed time exceeded the timeout; and if
the very first fetched status is terminal the wait returns it after that
single fetch regardless of the timeout value — including a timeout of 0. -/
theorem claim_C10_wait_first_poll :
    (∀ pI tO sA eA fuel t s,
      (waitGo pI tO sA eA fuel t).outcome = WaitOutcome.timedOut s →
      isTerminalStatus s = false ∧
      1 ≤ (waitGo pI tO sA eA fuel t).polls ∧
      ∃ j, t ≤ j ∧ sA j = s ∧ tO < eA j) ∧
    (∀ pI tO sA eA fuel,
      isTerminalStatus (sA 0) = true → 1 ≤ fuel →
      (waitGo pI tO sA eA fuel 0).outcome = WaitOutcome.done (sA 0) ∧
      (waitGo pI tO sA eA fuel 0).polls = 1) := by
  constructor
  · intro pI tO sA eA fuel
    induction fuel with
    | zero => intro t s h; simp [waitGo] at h
    | succ f ih =>
      intro t s h
      rw [waitGo] at h ⊢
      dsimp only at h ⊢
      by_cases hT : isTerminalStatus (sA t) = true
      · rw [if_pos hT] at h
        simp at h
      · rw [if_neg hT] at h ⊢
        by_cases hE : tO < eA t
        · rw [if_pos hE] at h ⊢
          dsimp only at h
          have hs : sA t = s := by
            simpa [WaitOutcome.timedOut.injEq] using h
          subst hs
          exact ⟨Bool.eq_false_iff.mpr (fun hc => hT hc), by simp, t, le_rfl, rfl, hE⟩
        · rw [if_neg hE] at h ⊢
          dsimp only at h ⊢
          have hrec := ih (t + 1) s h
          exact ⟨hrec.1, by simp, by
            obtain ⟨j, hj, hjs, hje⟩ := hrec.2.2
            exact ⟨j, by omega, hjs, hje⟩⟩
  · intro pI tO sA eA fuel hT hf
    cases fuel with
    | zero => omega
    | succ f =>
      rw [waitGo]
      dsimp only
      rw [if_pos hT]
      exact ⟨rfl, rfl⟩

/-- Witness for C10: at timeout 0 with an immediately-completed job the
wait returns "completed" after one fetch; and a timed-out run at timeout 0
reports the non-terminal status "processing" after one fetch. -/
theorem claim_C10_witness :
    ((waitGo 2000 0 (fun _ => ConvStatus.completed) (fun _ => 1) 1 0).outcome =
        WaitOutcome.done ConvStatus.completed ∧
      (waitGo 2000 0 (fun _ => ConvStatus.completed) (fun _ => 1) 1 0).polls = 1) ∧
    (isTerminalStatus ConvStatus.processing = false ∧
      1 ≤ (waitGo 2000 0 (fun _ => ConvStatus.processing) (fun _ => 1) 1 0).polls ∧
      ∃ j, 0 ≤ j ∧ (fun _ => ConvStatus.processing) j = ConvStatus.processing ∧
        0 < (fun _ => (1 : Nat)) j) := by
  constructor
  · exact claim_C10_wait_first_poll.2 2000 0 (fun _ => ConvStatus.completed)
      (fun _ => 1) 1 (by decide) (by omega)
  · exact claim_C10_wait_first_poll.1 2000 0 (fun _ => ConvStatus.processing)
      (fun _ => 1) 1 0 ConvStatus.processing (by decide)

/-- Claim C5: the format-list cache.  (1) From an empty cache a call
fetches and stores the response with its fetch time; (2) a later call
within the TTL of the stored timestamp is a pure cache hit: no network
call, the cached data returned, cache unchanged; (3) once the age reaches
the TTL the call fetches again and overwrites the cache entry; (4) the
cache-bypass flag always fetches and overwrites; (5) composing (1) and
(2): of two calls from a fresh client within the TTL window only the first
issues a network request and the second returns the data the first
stored. -/
theorem claim_C5_cache :
    (∀ now1 ft1 fresh1,
      getSupportedFormats none false now1 ft1 fresh1 =
        GetFormatsOutcome.mk fresh1 (some (CacheEntry.mk fresh1 ft1)) true) ∧
    (∀ d ts now ft fresh, now - ts < FORMAT_CACHE_TTL →
      getSupportedFormats (some (CacheEntry.mk d ts)) false now ft fresh =
        GetFormatsOutcome.mk d (some (CacheEntry.mk d ts)) false) ∧
    (∀ d ts now ft fresh, FORMAT_CACHE_TTL ≤ now - ts →
      getSupportedFormats (some (CacheEntry.mk d ts)) false now ft fresh =
        GetFormatsOutcome.mk fresh (some (CacheEntry.mk fresh ft)) true) ∧
    (∀ c now ft fresh, getSupportedFormats c true now ft fresh =
        GetFormatsOutcome.mk fresh (some (CacheEntry.mk fresh ft)) true) ∧
    (∀ now1 ft1 fresh1 now2 ft2 fresh2, now2 - ft1 < FORMAT_CACHE_TTL →
      (getSupportedFormats none false now1 ft1 fresh1).networkCalled = true ∧
      (getSupportedFormats (getSupportedFormats none false now1 ft1 fresh1).cache
          false now2 ft2 fresh2).networkCalled = false ∧
      (getSupportedFormats (getSupportedFormats none false now1 ft1 fresh1).cache
          false now2 ft2 fresh2).data = fresh1) := by
  refine ⟨?_, ?_, ?_, ?_, ?_⟩
  · intro now1 ft1 fresh1; rfl
  · intro d ts now ft fresh h
    rw [getSupportedFormats]
    rw [if_pos (And.intro rfl h)]
  · intro d ts now ft fresh h
    rw [getSupportedFormats]
    rw [if_neg (by intro hc; have hc2 := hc.2; dsimp only at hc2; omega)]
  · intro c now ft fresh
    cases c with
    | none => rfl
    | some e =>
      rw [getSupportedFormats]
      rw [if_neg (by intro hc; exact absurd hc.1 (by simp))]
  · intro now1 ft1 fresh1 now2 ft2 fresh2 h
    refine ⟨rfl, ?_, ?_⟩
    · show (getSupportedFormats (some (CacheEntry.mk fresh1 ft1)) false now2 ft2 fresh2).networkCalled = false
      rw [getSupportedFormats, if_pos (And.intro rfl h)]
    · show (getSupportedFormats (some (CacheEntry.mk fresh1 ft1)) false now2 ft2 fresh2).data = fresh1
      rw [getSupportedFormats, if_pos (And.intro rfl h)]

/-- Witness for C5 at concrete times: store at fetch time 7, hit at age
3599999, miss at age 3600000. -/
theorem claim_C5_witness :
    getSupportedFormats none false 5 7 42 =
      GetFormatsOutcome.mk 42 (some (CacheEntry.mk 42 7)) true ∧
    getSupportedFormats (some (CacheEntry.mk 42 7)) false 3600006 3600010 77 =
      GetFormatsOutcome.mk 42 (some (CacheEntry.mk 42 7)) false ∧
    getSupportedFormats (some (CacheEntry.mk 42 7)) false 3600007 3600010 77 =
      GetFormatsOutcome.mk 77 (some (CacheEntry.mk 77 3600010)) true ∧
    getSupportedFormats (some (CacheEntry.mk 42 7)) true 100 200 77 =
      GetFormatsOutcome.mk 77 (some (CacheEntry.mk 77 200)) true := by
  have h := claim_C5_cache
  exact ⟨h.1 5 7 42, h.2.1 42 7 3600006 3600010 77 (by decide),
    h.2.2.1 42 7 3600007 3600010 77 (by decide), h.2.2.2.1 (some (CacheEntry.mk 42 7)) 100 200 77⟩

/-- Claim C6 (amended): every locally-detected invalid input is rejected
before any network request: an `Except.error` is produced while the
request descriptor (the `Except.ok` payload) is never built.  (1) A
credential without the "ce_" prefix fails client construction; (2) a
syntactically invalid UUID makes getConversionStatus, downloadFile,
waitForConversion, cancelConversion and retryConversion fail; (3) the
format check fails exactly for formats whose lowercased form is neither an
own key of the supported-format table nor one of the lowercase
Object.prototype property names that the JS `in` operator also reports —
every such target format makes convertFileBuffer and convertFile fail;
(4) a payload over the 10 GiB ceiling makes convertFileBuffer fail. -/
theorem claim_C6_validation (apiKey cid tf fn : String) (bu : Option String) (tm : Option Nat)
    (vu : String → Bool) (size psize : Nat) (pname : String)
    (po tOv : Option Nat) (sA : Nat → ConvStatus) (eA : Nat → Nat) (fuel : Nat) :
    (strStartsWith apiKey ("ce_") = false → ∃ e, mkClient apiKey bu tm vu = Except.error e) ∧
    (isValidUuid cid = false →
      getConversionStatusReq cid = Except.error ("Invalid conversion ID format") ∧
      downloadFileReq cid = Except.error ("Invalid conversion ID format") ∧
      waitForConversion cid po tOv sA eA fuel = Except.error ("Invalid conversion ID format") ∧
      cancelConversionReq cid = Except.error ("Invalid conversion ID format") ∧
      retryConversionReq cid = Except.error ("Invalid conversion ID format")) ∧
    (∀ f, isFormatSupported f = false ↔
      (toLowerJS f ∉ FORMAT_KEYS ∧ toLowerJS f ∉ OBJECT_PROTO_LOWER_KEYS)) ∧
    (isFormatSupported (normalizeFormat tf) = false →
      (∃ e, convertFileBufferReq size fn tf = Except.error e) ∧
      (∃ e, convertFileReq (some (psize, pname)) tf = Except.error e)) ∧
    (MAX_UPLOAD_SIZE < size →
      convertFileBufferReq size fn tf = Except.error ("File too large. Maximum size is 10GB.")) := by
  refine ⟨?_, ?_, ?_, ?_, ?_⟩
  · intro hk
    rw [mkClient]
    by_cases hempty : apiKey = ""
    · rw [if_pos hempty]; exact ⟨_, rfl⟩
    · rw [if_neg hempty, if_pos hk]; exact ⟨_, rfl⟩
  · intro hu
    have hneg : ¬ (isValidUuid cid = true) := by rw [hu]; exact Bool.false_ne_true
    refine ⟨?_, ?_, ?_, ?_, ?_⟩
    · rw [getConversionStatusReq, if_neg hneg]
    · rw [downloadFileReq, if_neg hneg]
    · rw [waitForConversion, if_neg hneg]
    · rw [cancelConversionReq, if_neg hneg]
    · rw [retryConversionReq, if_neg hneg]
  · intro f
    rw [isFormatSupported]
    simp
  · intro hf
    constructor
    · by_cases hsize : MAX_UPLOAD_SIZE < size
      · rw [convertFileBufferReq, if_pos hsize]; exact ⟨_, rfl⟩
      · rw [convertFileBufferReq, if_neg hsize]
        dsimp only
        rw [if_pos hf]
        exact ⟨_, rfl⟩
    · rw [convertFileReq]
      dsimp only
      rw [if_pos hf]
      exact ⟨_, rfl⟩
  · intro hsize
    rw [convertFileBufferReq, if_pos hsize]

/-- Witness for C6 at concrete invalid inputs: the key "sk_x", the id
"not-a-uuid", the format "exe" (not a table key, not a prototype name) and
a payload one byte over 10 GiB. -/
theorem claim_C6_witness :
    (∃ e, mkClient ("sk_x") none none (fun _ => true) = Except.error e) ∧
    getConversionStatusReq ("not-a-uuid") = Except.error ("Invalid conversion ID format") ∧
    waitForConversion ("not-a-uuid") none none (fun _ => ConvStatus.pending) (fun _ => 0) 3 =
      Except.error ("Invalid conversion ID format") ∧
    (isFormatSupported ("exe") = false ↔
      (toLowerJS ("exe") ∉ FORMAT_KEYS ∧ toLowerJS ("exe") ∉ OBJECT_PROTO_LOWER_KEYS)) ∧
    (∃ e, convertFileBufferReq 4 ("a.wav") ("exe") = Except.error e) ∧
    convertFileBufferReq (10 * 1024 * 1024 * 1024 + 1) ("a.wav") ("wav") =
      Except.error ("File too large. Maximum size is 10GB.") := by
  have h := claim_C6_validation ("sk_x") ("not-a-uuid") ("exe") ("a.wav") none none
    (fun _ => true) (10 * 1024 * 1024 * 1024 + 1) 4 ("a.wav")
    none none (fun _ => ConvStatus.pending) (fun _ => 0) 3
  have h2 := h.2.1 (by decide)
  have h3 := (claim_C6_validation ("sk_x") ("not-a-uuid") ("exe") ("a.wav") none none
    (fun _ => true) 4 4 ("a.wav")
    none none (fun _ => ConvStatus.pending) (fun _ => 0) 3).2.2.2.1 (by decide)
  exact ⟨h.1 (by decide), h2.1, h2.2.2.1, h.2.2.1 ("exe"), h3.1, h.2.2.2.2 (by decide)⟩

/-- Counterexample to C6 as stated: the target format "constructor" is not
in the supported-format table, but the JS in-operator consults the
prototype chain and finds Object.prototype.constructor, so
isFormatSupported accepts it and convertFileBuffer builds and issues the
upload request instead of failing locally; likewise for "__proto__". -/
theorem claim_C6_counterexample :
    "constructor" ∉ FORMAT_KEYS ∧
    isFormatSupported ("constructor") = true ∧
    convertFileBufferReq 4 ("a.wav") ("constructor") =
      Except.ok (ApiRequest.post ("/convert") 4 ("a.wav") ("constructor")) ∧
    "__proto__" ∉ FORMAT_KEYS ∧
    isFormatSupported ("__proto__") = true := by
  refine ⟨by decide, by decide, by decide, by decide, by decide⟩

theorem head_dropWhile_false (p : Char → Bool) :
    ∀ (l : List Char) (c : Char), (l.dropWhile p).head? = some c → p c = false := by
  intro l
  induction l with
  | nil => intro c h; simp [List.dropWhile] at h
  | cons a l ih =>
    intro c h
    rw [List.dropWhile_cons] at h
    by_cases hpa : p a = true
    · rw [if_pos hpa] at h; exact ih c h
    · rw [if_neg hpa] at h
      simp only [List.head?_cons, Option.some.injEq] at h
      subst h
      exact Bool.eq_false_iff.mpr hpa

theorem stripTrailing_lastChar (s : String) :
    (stripTrailingSlashes s).data.getLast? ≠ some '/' := by
  intro hc
  rw [stripTrailingSlashes] at hc
  rw [show (String.mk (stripTrailingSlashesL s.data)).data = stripTrailingSlashesL s.data from rfl] at hc
  rw [stripTrailingSlashesL, List.getLast?_reverse] at hc
  have := head_dropWhile_false (fun c => c = '/') s.data.reverse '/' hc
  simp at this

theorem prefix_length_eq {p l : List Char} (hp : p <+: l) (hl : l.length = p.length) : l = p := by
  obtain ⟨u, hu⟩ := hp
  have : u.length = 0 := by
    have := congrArg List.length hu
    simp [List.length_append] at this
    omega
  rw [List.length_eq_zero] at this
  subst this
  simpa using hu.symm

/-- Claim C7 (amended): sanitizeUrl normalization.  (1) If the
slash-stripped address starts with "http://" and does not contain the
substring "localhost" anywhere, the normalized address starts with
"https://"; (2) the normalized address never ends with a slash; (3) an
address the platform URL parser rejects makes construction fail. -/
theorem claim_C7_url :
    (∀ url, strStartsWith (stripTrailingSlashes url) ("http://") = true →
      strContains (stripTrailingSlashes url) ("localhost") = false →
      strStartsWith (sanitizeUrlCore url) ("https://") = true) ∧
    (∀ url, lastCharOf (sanitizeUrlCore url) ≠ some '/') ∧
    (∀ vu url, vu (sanitizeUrlCore url) = false →
      sanitizeUrl vu url = Except.error ("Invalid base URL: " ++ url)) := by
  refine ⟨?_, ?_, ?_⟩
  · intro url h1 h2
    rw [sanitizeUrlCore]
    dsimp only
    rw [if_pos (by rw [h1, h2]; rfl)]
    rw [strStartsWith]
    exact List.isPrefixOf_iff_prefix.mpr (List.prefix_append _ _)
  · intro url hc
    rw [lastCharOf, sanitizeUrlCore] at hc
    dsimp only at hc
    by_cases hcond : (strStartsWith (stripTrailingSlashes url) ("http://") &&
        !strContains (stripTrailingSlashes url) ("localhost")) = true
    · rw [if_pos hcond] at hc
      rw [show (String.mk (("https://").data ++ (stripTrailingSlashes url).data.drop 7)).data
          = ("https://").data ++ (stripTrailingSlashes url).data.drop 7 from rfl] at hc
      have h1 : strStartsWith (stripTrailingSlashes url) ("http://") = true :=
        (Bool.and_eq_true _ _ |>.mp hcond).1
      rw [strStartsWith] at h1
      have hpre : ("http://").data <+: (stripTrailingSlashes url).data :=
        List.isPrefixOf_iff_prefix.mp h1
      have hlen7 : 7 ≤ (stripTrailingSlashes url).data.length := by
        have hx := List.IsPrefix.length_le hpre
        rw [show ("http://").data.length = 7 from rfl] at hx
        exact hx
      have hnn : (stripTrailingSlashes url).data.drop 7 ≠ [] := by
        intro hdrop
        have hle : (stripTrailingSlashes url).data.length ≤ 7 := by
          have hx := congrArg List.length hdrop
          rw [List.length_drop, List.length_nil] at hx
          omega
        have heq : (stripTrailingSlashes url).data = ("http://").data :=
          prefix_length_eq hpre (by rw [show ("http://").data.length = 7 from rfl]; omega)
        have := stripTrailing_lastChar url
        rw [heq] at this
        exact this (by decide)
      rw [List.getLast?_append_of_ne_nil _ hnn] at hc
      have hsplit : (stripTrailingSlashes url).data =
          (stripTrailingSlashes url).data.take 7 ++ (stripTrailingSlashes url).data.drop 7 :=
        (List.take_append_drop 7 _).symm
      have := stripTrailing_lastChar url
      rw [hsplit, List.getLast?_append_of_ne_nil _ hnn] at this
      exact this hc
    · rw [if_neg hcond] at hc
      exact stripTrailing_lastChar url hc
  · intro vu url h
    rw [sanitizeUrl]
    rw [if_neg (by rw [h]; exact Bool.false_ne_true)]

/-- Counterexample to C7 as stated: the base address
"http://example.com/localhost" uses the insecure scheme and its host
"example.com" is not a loopback host, yet the normalized address keeps the
insecure scheme, because the code tests for the substring "localhost"
anywhere in the address rather than for a loopback host. -/
theorem claim_C7_counterexample :
    sanitizeUrlCore ("http://example.com/localhost") = "http://example.com/localhost" ∧
    strStartsWith ("http://example.com/localhost") ("http://") = true ∧
    urlHost ("http://example.com/localhost") = "example.com" ∧
    specReferencesLoopbackHost ("http://example.com/localhost") = false ∧
    strStartsWith (sanitizeUrlCore ("http://example.com/localhost")) ("https://") = false := by
  refine ⟨by decide, by decide, by decide, by decide, by decide⟩

/-- Witness for C7: "http://example.com//" normalizes to
"https://example.com" (scheme upgraded, trailing slashes gone), and a
rejecting URL parser fails construction. -/
theorem claim_C7_witness :
    strStartsWith (sanitizeUrlCore ("http://example.com//")) ("https://") = true ∧
    lastCharOf (sanitizeUrlCore ("http://example.com//")) ≠ some '/' ∧
    sanitizeUrl (fun _ => false) ("::not a url::") =
      Except.error ("Invalid base URL: " ++ "::not a url::") := by
  exact ⟨claim_C7_url.1 ("http://example.com//") (by decide) (by decide),
    claim_C7_url.2.1 ("http://example.com//"),
    claim_C7_url.2.2 (fun _ => false) ("::not a url::") rfl⟩

theorem mem_extnameNS {c : Char} {l : List Char} (h : c ∈ extnameNS l) : c ∈ l := by
  rw [extnameNS] at h
  cases hld : lastDotIdx l with
  | none => rw [hld] at h; simp at h
  | some i =>
    rw [hld] at h
    dsimp only at h
    by_cases h0 : i = 0
    · rw [if_pos h0] at h; simp at h
    · rw [if_neg h0] at h
      by_cases h1 : i = 1 ∧ i = l.length - 1 ∧ l.head? = some '.'
      · rw [if_pos h1] at h; simp at h
      · rw [if_neg h1] at h
        exact List.drop_subset i l h

theorem mem_basenameSuffixNS {c : Char} {l e : List Char} (h : c ∈ basenameSuffixNS l e) :
    c ∈ l := by
  rw [basenameSuffixNS] at h
  by_cases h0 : e.length = 0 ∨ l.length < e.length
  · rw [if_pos h0] at h; exact h
  · rw [if_neg h0] at h
    by_cases h1 : e.isSuffixOf l = true
    · rw [if_pos h1] at h
      by_cases h2 : l.length = e.length
      · rw [if_pos h2] at h; exact h
      · rw [if_neg h2] at h; exact List.take_subset _ l h
    · rw [if_neg h1] at h; exact h

theorem sanStage_control_free {c : Char} {cs : List Char} (h : c ∈ sanStage cs) :
    CONTROL_RANGE c = false := by
  rw [sanStage] at h
  have hx := (List.mem_filter.mp h).2
  simpa using hx

theorem sanitizeFilenameL_control_free (cs : List Char) (c : Char)
    (hc : c ∈ sanitizeFilenameL cs) : CONTROL_RANGE c = false := by
  rw [sanitizeFilenameL] at hc
  dsimp only at hc
  by_cases hlen : 255 < (sanStage cs).length
  · rw [if_pos hlen] at hc
    set n2 := sanStage cs with hn2
    split at hc
    · simp at hc
      rcases hc with rfl | rfl | rfl | rfl <;> decide
    · rcases List.mem_append.mp hc with hx | hx
      · exact sanStage_control_free (mem_basenameSuffixNS (List.take_subset _ _ hx))
      · exact sanStage_control_free (mem_extnameNS hx)
  · rw [if_neg hlen] at hc
    split at hc
    · simp at hc
      rcases hc with rfl | rfl | rfl | rfl <;> decide
    · exact sanStage_control_free hc

theorem sanitizeFilenameL_length (cs : List Char)
    (hext : (extnameNS (sanStage cs)).length ≤ 255) :
    (sanitizeFilenameL cs).length ≤ 255 := by
  rw [sanitizeFilenameL]
  dsimp only
  by_cases hlen : 255 < (sanStage cs).length
  · rw [if_pos hlen]
    have hn3 : ((basenameSuffixNS (sanStage cs) (extnameNS (sanStage cs))).take
        (255 - (extnameNS (sanStage cs)).length) ++ extnameNS (sanStage cs)).length ≤ 255 := by
      rw [List.length_append, List.length_take]
      omega
    split
    · decide
    · exact hn3
  · rw [if_neg hlen]
    split
    · decide
    · omega

theorem sanitizeFilenameL_ext (cs : List Char) (hlen : 255 < (sanStage cs).length) :
    sanitizeFilenameL cs = ['f', 'i', 'l', 'e'] ∨
    ∃ b, sanitizeFilenameL cs = b ++ extnameNS (sanStage cs) := by
  rw [sanitizeFilenameL]
  dsimp only
  rw [if_pos hlen]
  split
  · exact Or.inl rfl
  · exact Or.inr ⟨_, rfl⟩

/-- Claim C8 (amended): filename sanitization.  (1) Directory components
are stripped: "../../etc/passwd" becomes "passwd"; (2) no character of the
removed ranges x00-x1f and x80-x9f survives; (3) whenever the extension
computed for the overlong name is itself at most 255 characters, the
result is capped at 255 characters; (4) a truncated overlong name keeps
its extension as a suffix (unless the fallback fires); (5) an empty input
yields the fallback name "file". -/
theorem claim_C8_sanitize :
    sanitizeFilename ("../../etc/passwd") = "passwd" ∧
    (∀ s c, c ∈ (sanitizeFilename s).data → CONTROL_RANGE c = false) ∧
    (∀ s, (extnameNS (sanStage s.data)).length ≤ 255 →
      (sanitizeFilename s).data.length ≤ 255) ∧
    (∀ s, 255 < (sanStage s.data).length →
      (sanitizeFilename s).data = ['f', 'i', 'l', 'e'] ∨
      ∃ b, (sanitizeFilename s).data = b ++ extnameNS (sanStage s.data)) ∧
    sanitizeFilename ("") = "file" := by
  refine ⟨by decide, ?_, ?_, ?_, by decide⟩
  · intro s c hc
    exact sanitizeFilenameL_control_free s.data c hc
  · intro s hext
    exact sanitizeFilenameL_length s.data hext
  · intro s hlen
    exact sanitizeFilenameL_ext s.data hlen

/-- Witness for C8: concrete instances of the universally quantified
conjuncts. -/
theorem claim_C8_witness :
    CONTROL_RANGE 'p' = false ∧
    (sanitizeFilename ("report.pdf")).data.length ≤ 255 := by
  exact ⟨claim_C8_sanitize.2.1 ("../../etc/passwd") 'p' (by decide),
    claim_C8_sanitize.2.2.1 ("report.pdf") (by decide)⟩

set_option maxRecDepth 40000 in
/-- Counterexample to C8 as stated: a 257-character name "a." followed by
255 times "b" has an extension of 256 characters; the truncation keeps the
whole extension, so the sanitized result still has 256 characters — the
cap at 255 fails when the extension alone exceeds it. -/
theorem claim_C8_counterexample :
    (String.mk ('a' :: '.' :: List.replicate 255 'b')).data.length = 257 ∧
    255 < (sanitizeFilename (String.mk ('a' :: '.' :: List.replicate 255 'b'))).data.length := by
  refine ⟨by decide, by decide⟩

/-- Claim C9: estimateOutputSize on a 150 MB WAV converted to MP3 at
bitrate "128k" applies the lossless-to-lossy rule, scaling the input size
by 128 / 1400, and reports confidence "high": the estimate equals
round(150000000 * 128 / 1400) = 13714286 bytes. -/
theorem claim_C9_estimate :
    estimateOutputSize 150000000 ("wav") ("mp3") (EstOptions.mk (some "128k") none none) =
      EstResult.mk 13714286 Confidence.high ("Based on 128k bitrate") ∧
    (13714286 : ℤ) = round ((150000000 : ℚ) * (128 / 1400)) := by
  constructor
  · have h1 : estimateOutputSize 150000000 ("wav") ("mp3")
        (EstOptions.mk (some "128k") none none) =
        EstResult.mk (round ((150000000 : ℚ) * (128 / 1400))) Confidence.high
          ("Based on 128k bitrate") := by
      simp [estimateOutputSize, jsOrString, jsOrInt, parseIntJS, replaceFirstL,
        leadingDigits, leadingDigitsGo, toLowerJS, charLowerJS]
    rw [h1]
    have h2 : round ((150000000 : ℚ) * (128 / 1400)) = 13714286 := by
      norm_num [round_eq]
    rw [h2]
  · norm_num [round_eq]
